import Mathlib

/-!
Verification of the Dream-Comic-AI repository (`dream_comic_generator_server.py`,
`dream_comic_generator_client.py`) against its natural-language specification.

Strings are modelled as `List Char`; Python dicts (string keys, string values) as
insertion-ordered association lists.  The panel extractor, the per-panel image and
translation loops of `generate_dream_comic`, and the `/api/generate-comic` endpoint
are embedded as executable Lean functions; the three external AI services are
abstracted as oracle parameters (the chat reply, per-panel image-generation success,
and the translation call's outcome).
-/

namespace DreamComic

/-- Python strings, modelled as lists of characters. -/
abbrev Str := List Char

/-! ## Python string primitives -/

/-- The characters stripped by Python's `str.strip()` with no argument
(ASCII whitespace; the inputs handled by this program are ASCII). -/
def isSpaceChar (c : Char) : Bool :=
  c = ' ' || c = '\t' || c = '\n' || c = '\r' || c = '\x0b' || c = '\x0c'

/-- Python `s.strip()`: remove leading and trailing whitespace. -/
def pyStrip (s : Str) : Str :=
  ((s.dropWhile isSpaceChar).reverse.dropWhile isSpaceChar).reverse

/-- Python `content.split("\n")` (keeps empty segments; `"".split("\n") == [""]`). -/
def pySplit : Str → List Str
  | [] => [[]]
  | c :: rest =>
    if c = '\n' then [] :: pySplit rest
    else
      match pySplit rest with
      | [] => [[c]]
      | l :: ls => (c :: l) :: ls

/-- Is `p` a prefix of `s`?  (Bool-valued, executable.) -/
def isPrefixB : Str → Str → Bool
  | [], _ => true
  | _ :: _, [] => false
  | a :: as, b :: bs => a = b && isPrefixB as bs

/-- Python `p in s` for strings: substring containment. -/
def strInfix (p : Str) : Str → Bool
  | [] => p.isEmpty
  | c :: rest => isPrefixB p (c :: rest) || strInfix p rest

/-- Does the string contain a colon?  (Python `":" in line`.) -/
def hasColon : Str → Bool
  | [] => false
  | c :: rest => if c = ':' then true else hasColon rest

/-- Everything after the first colon (Python `line.split(":", 1)[1]`);
`[]` when there is no colon. -/
def afterColon : Str → Str
  | [] => []
  | c :: rest => if c = ':' then rest else afterColon rest

/-- Python `os.path.join(d, n)` for the shapes used here. -/
def pyJoin (d n : Str) : Str :=
  if d.isEmpty then n
  else if d.getLast? = some '/' then d ++ n
  else d ++ '/' :: n

/-- Python `os.path.basename`: the part after the last `'/'`. -/
def pyBasename (p : Str) : Str :=
  (p.reverse.takeWhile (fun c => c != '/')).reverse

/-! ## Association lists standing in for Python dicts

Insertion-ordered: setting an existing key overwrites it in place, a new key is
appended (exactly Python 3.7+ dict semantics, restricted to the operations used). -/

/-- Dict lookup, `d.get(key)`. -/
def alistGet? {α : Type} : List (Str × α) → Str → Option α
  | [], _ => none
  | (k, v) :: rest, key => if k = key then some v else alistGet? rest key

/-- Dict membership, `key in d`. -/
def alistHas {α : Type} : List (Str × α) → Str → Bool
  | [], _ => false
  | (k, _) :: rest, key => if k = key then true else alistHas rest key

/-- Dict assignment, `d[key] = v`. -/
def alistSet {α : Type} (d : List (Str × α)) (key : Str) (v : α) : List (Str × α) :=
  if alistHas d key then d.map (fun p => if p.1 = key then (key, v) else p)
  else d ++ [(key, v)]

/-! ## Panel keys, markers and fixed message strings of the source -/

/-- The decimal digit used by the f-strings `f"panel{i}"` etc. for `i` in 1..4. -/
def digitStr : Nat → Str
  | 1 => "1".data
  | 2 => "2".data
  | 3 => "3".data
  | 4 => "4".data
  | _ => []

/-- The literal `"Panel {i}:"` tested first by `extract_panels`. -/
def markerC (i : Nat) : Str := "Panel ".data ++ digitStr i ++ ":".data

/-- The literal `"Panel {i}"` tested second by `extract_panels`. -/
def markerP (i : Nat) : Str := "Panel ".data ++ digitStr i

/-- Dict key `f"panel{i}"`. -/
def panelKey (i : Nat) : Str := "panel".data ++ digitStr i

/-- Dict key `f"{panel_key}_image"`. -/
def imageKey (i : Nat) : Str := panelKey i ++ "_image".data

/-- Dict key `f"{panel_key}_chinese"`. -/
def chineseKey (i : Nat) : Str := panelKey i ++ "_chinese".data

/-- The sentinel `f"[Panel {i} description not found]"` filled in for a missing panel. -/
def placeholderFor (i : Nat) : Str :=
  "[Panel ".data ++ digitStr i ++ " description not found]".data

/-- The file name `f"panel_{i}.png"` used for a generated image. -/
def panelPngName (i : Nat) : Str := "panel_".data ++ digitStr i ++ ".png".data

/-- `"error"`, the key of the failure dict returned by `generate_dream_comic`. -/
def errorKey : Str := "error".data

/-- `"No valid description for image generation"`. -/
def noValidImageMsg : Str := "No valid description for image generation".data

/-- `"Failed to generate image"`. -/
def failedImageMsg : Str := "Failed to generate image".data

/-- `"Translation not available"`. -/
def notAvailableMsg : Str := "Translation not available".data

/-- `"Missing required parameter: dream_text"`. -/
def missingMsg : Str := "Missing required parameter: dream_text".data

/-! ## The panel extractor (`extract_panels`, server lines 210-241) -/

/-- The marker test of one `elif` arm:
`"Panel i:" in line or "Panel i" in line`. -/
def lineMatches (i : Nat) (line : Str) : Bool :=
  strInfix (markerC i) line || strInfix (markerP i) line

/-- `line.split(":", 1)[1].strip() if ":" in line else ""`. -/
def colonInit (line : Str) : Str :=
  if hasColon line then pyStrip (afterColon line) else []

/-- The loop state of `extract_panels`: the `panels` dict and `current_panel`
(held as the index 1..4 of the current `f"panel{i}"` key, `none` for Python `None`). -/
structure ExtractState where
  panels : List (Str × Str)
  current : Option Nat
deriving DecidableEq, Repr

/-- One iteration of the `for line in lines` loop of `extract_panels`. -/
def stepLine (s : ExtractState) (line : Str) : ExtractState :=
  if lineMatches 1 line then ⟨alistSet s.panels (panelKey 1) (colonInit line), some 1⟩
  else if lineMatches 2 line then ⟨alistSet s.panels (panelKey 2) (colonInit line), some 2⟩
  else if lineMatches 3 line then ⟨alistSet s.panels (panelKey 3) (colonInit line), some 3⟩
  else if lineMatches 4 line then ⟨alistSet s.panels (panelKey 4) (colonInit line), some 4⟩
  else
    match s.current with
    | some i =>
      if (pyStrip line).isEmpty then s
      else ⟨alistSet s.panels (panelKey i)
              (((alistGet? s.panels (panelKey i)).getD []) ++ ' ' :: pyStrip line), s.current⟩
    | none => s

/-- One iteration of the final `for i in range(1, 5)` fill loop:
`if panel_key not in panels: panels[panel_key] = f"[Panel {i} description not found]"`. -/
def fillStep (d : List (Str × Str)) (i : Nat) : List (Str × Str) :=
  if alistHas d (panelKey i) then d else alistSet d (panelKey i) (placeholderFor i)

/-- The fill loop ensuring all four panel keys are present. -/
def fillMissing (d : List (Str × Str)) : List (Str × Str) :=
  [1, 2, 3, 4].foldl fillStep d

/-- `extract_panels(content)` (server lines 210-241). -/
def extract_panels (content : Str) : List (Str × Str) :=
  let lines := pySplit content
  let st := lines.foldl stepLine ⟨[], none⟩
  fillMissing st.panels

/-! ## The generation pipeline (`generate_dream_comic`, server lines 63-208)

The shipped function has a genuine defect: its body reads the local variable
`image_path` at line 98 (`if image_path and os.path.exists(image_path):`) while the
only assignment to `image_path` is at line 151, inside the image loop.  Under Python
scoping an assignment anywhere in a function makes the name local throughout, so
line 98 raises `UnboundLocalError` on every call, before the `try` block is entered.
(The docstring still documents `image_path` as a parameter; the signature lost it.)
`generate_dream_comic_body` below embeds the `try`-block body, lines 102-204 — the
behavior the function exhibits once line 98 is passed (no repository call site
supplies an image, so lines 96-100 are otherwise a no-op); the shipped
always-raising behavior is modelled separately for the endpoint
(`api_generate_comic_shipped`). -/

/-- Outcome of the `requests.post` chat-completion call, lines 105-133:
an exception during the call, or a response with status code and text; for a
status-200 response, `content` is the reply text that lines 119-133 extract from
the response JSON (that JSON-shape dispatch is abstracted to the resulting string). -/
inductive ChatOutcome where
  | exn (msg : Str)
  | resp (status : Nat) (text : Str) (content : Str)
deriving DecidableEq, Repr

/-- `translate_to_traditional_chinese` (lines 33-61): the Groq call is the oracle
`tro`; `none` models an exception, and the `except` arm returns the input text. -/
def translate_to_traditional_chinese (tro : Str → Option Str) (text : Str) : Str :=
  match tro text with
  | some t => t
  | none => text

/-- `generate_image` (lines 243-273): the Stable-Diffusion call, decode and save are
abstracted to the success flag `ok`; on success the function returns `output_path`,
on any exception it returns `None`. -/
def generate_image (ok : Bool) (output_path : Str) : Option Str :=
  if ok then some output_path else none

/-- The validity test guarding both per-panel loops.  Image loop, line 154:
`if comic_panels[panel_key] and "[Panel" not in comic_panels[panel_key]:`;
translation loop, line 174, is its negation:
`if not panel_description or "[Panel" in panel_description:`. -/
def validDesc (d : Str) : Bool :=
  !d.isEmpty && !strInfix "[Panel".data d

/-- The description of panel `i` held by dict `d` (`comic_panels[panel_key]`;
the key is always present after `extract_panels`, so the `getD` default is inert). -/
def descOf (d : List (Str × Str)) (i : Nat) : Str :=
  (alistGet? d (panelKey i)).getD []

/-- One iteration of the image loop, lines 149-162.  The accumulator carries the
`comic_panels` dict and the log of prompts actually sent to `generate_image`. -/
def imgStep (imgOk : Nat → Bool) (output_dir : Str)
    (acc : List (Str × Str) × List Str) (i : Nat) : List (Str × Str) × List Str :=
  let desc := descOf acc.1 i
  if validDesc desc then
    match generate_image (imgOk i) (pyJoin output_dir (panelPngName i)) with
    | some p => (alistSet acc.1 (imageKey i) p, acc.2 ++ [desc])
    | none => (alistSet acc.1 (imageKey i) failedImageMsg, acc.2 ++ [desc])
  else (alistSet acc.1 (imageKey i) noValidImageMsg, acc.2)

/-- The image loop `for i in range(1, 5)` of lines 149-162. -/
def imageLoop (imgOk : Nat → Bool) (output_dir : Str) (d : List (Str × Str)) :
    List (Str × Str) × List Str :=
  [1, 2, 3, 4].foldl (imgStep imgOk output_dir) (d, [])

/-- One iteration of the translation loop, lines 169-187.  The accumulator carries
the dict and the log of descriptions actually sent for translation. -/
def trStep (tro : Str → Option Str)
    (acc : List (Str × Str) × List Str) (i : Nat) : List (Str × Str) × List Str :=
  let desc := descOf acc.1 i
  if !validDesc desc then (alistSet acc.1 (chineseKey i) notAvailableMsg, acc.2)
  else (alistSet acc.1 (chineseKey i) (translate_to_traditional_chinese tro desc),
        acc.2 ++ [desc])

/-- The translation loop `for i in range(1, 5)` of lines 169-187. -/
def transLoop (tro : Str → Option Str) (d : List (Str × Str)) :
    List (Str × Str) × List Str :=
  [1, 2, 3, 4].foldl (trStep tro) (d, [])

/-- The result of one run of the `generate_dream_comic` body: the returned dict
(`comic_panels`, or the `{"error": ...}` dict of lines 116 and 204), together with
the log of image-generation prompts and of translation requests issued. -/
structure BodyResult where
  comic : List (Str × Str)
  imageCalls : List Str
  transCalls : List Str
deriving DecidableEq, Repr

/-- The `try`-block body of `generate_dream_comic`, lines 102-204, for the
`output_file=None` path (the API always passes `output_file=None`; the CLI file
dump at lines 192-195 does not change the returned dict).  A non-200 chat response
returns `{"error": response.text}` (lines 114-116) and a chat exception returns
`{"error": str(e)}` (lines 202-204), in both cases before any panel processing. -/
def generate_dream_comic_body (chat : ChatOutcome) (generate_images : Bool)
    (output_dir : Str) (translate_to_chinese : Bool)
    (imgOk : Nat → Bool) (tro : Str → Option Str) : BodyResult :=
  match chat with
  | .exn msg => ⟨[(errorKey, msg)], [], []⟩
  | .resp status text content =>
    if status ≠ 200 then ⟨[(errorKey, text)], [], []⟩
    else
      let panels := extract_panels content
      let pi := if generate_images then imageLoop imgOk output_dir panels
                else (panels, [])
      let pt := if translate_to_chinese then transLoop tro pi.1 else (pi.1, [])
      ⟨pt.1, pi.2, pt.2⟩

/-! ## The API endpoint (`api_generate_comic`, server lines 302-384) -/

/-- One panel's entry of the response JSON, lines 363-376: `description` always,
`chinese` when `f"{panel_key}_chinese"` is in the result dict, `image_url` when
`f"{panel_key}_image"` is in the result dict and that path exists on disk. -/
structure PanelEntry where
  description : Str
  chinese : Option Str
  image_url : Option Str
deriving DecidableEq, Repr

/-- The success payload, lines 355-381: the `panels` dict and the `session_id`. -/
structure ApiPayload where
  panels : List (Str × PanelEntry)
  session_id : Str
deriving DecidableEq, Repr

/-- An HTTP response of the endpoint: 200 with the payload, 400 with an error
message (line 325), or 500 with an error message (line 384). -/
inductive ApiResponse where
  | ok (payload : ApiPayload)
  | clientError (msg : Str)
  | serverError (msg : Str)
deriving DecidableEq, Repr

/-- Side effects of one endpoint invocation that the claims talk about: whether the
per-request session directory was created (line 340) and whether
`generate_dream_comic` — and with it the chat call — was invoked (line 346). -/
structure ApiEffects where
  sessionDirCreated : Bool
  generateCalled : Bool
deriving DecidableEq, Repr

/-- Python truthiness of an optional string (`None` and `""` are falsy). -/
def pyTruthy : Option Str → Bool
  | none => false
  | some s => !s.isEmpty

/-- Line 323: `dream_text = data.get('dream_text') or data.get('prompt')`. -/
def getDreamText (dream prompt : Option Str) : Option Str :=
  if pyTruthy dream then dream else prompt

/-- The module constant `OUTPUT_FOLDER` (line 21), abstracted to its directory name. -/
def outputFolder : Str := "output".data

/-- `f"/api/images/{session_id}/{image_filename}"` (line 376). -/
def apiImageUrl (sid fname : Str) : Str :=
  "/api/images/".data ++ sid ++ "/".data ++ fname

/-- Assembly of one panel's response entry, lines 361-378.  `fileEx` is
`os.path.exists`, an oracle over path strings. -/
def assemblePanel (comic : List (Str × Str)) (sid : Str) (fileEx : Str → Bool)
    (i : Nat) : PanelEntry :=
  { description := (alistGet? comic (panelKey i)).getD (placeholderFor i)
    chinese := alistGet? comic (chineseKey i)
    image_url :=
      match alistGet? comic (imageKey i) with
      | some v => if fileEx v then some (apiImageUrl sid (pyBasename v)) else none
      | none => none }

/-- The endpoint `api_generate_comic`, lines 302-384, with the `try`-block body of
`generate_dream_comic` in place of the shipped always-raising function (see the
note above `ChatOutcome`).  Request parsing is abstracted to the two optional
fields `dream_text` and `prompt` (no repository client sends a file upload, and no
claim involves one); `session_id` stands for the fresh `uuid.uuid4()`.  Returns the
response, the effects, and the image/translation call logs. -/
def api_generate_comic (dream prompt : Option Str) (session_id : Str)
    (chat : ChatOutcome) (imgOk : Nat → Bool) (tro : Str → Option Str)
    (fileEx : Str → Bool) : ApiResponse × ApiEffects × List Str × List Str :=
  let dream_text := getDreamText dream prompt
  if !pyTruthy dream_text then
    (.clientError missingMsg, ⟨false, false⟩, [], [])
  else
    let output_dir := pyJoin outputFolder session_id
    let r := generate_dream_comic_body chat true output_dir true imgOk tro
    let panels := [1, 2, 3, 4].map (fun i => (panelKey i, assemblePanel r.comic session_id fileEx i))
    (.ok ⟨panels, session_id⟩, ⟨true, true⟩, r.imageCalls, r.transCalls)

/-- The message of the `UnboundLocalError` raised at line 98 of the shipped
`generate_dream_comic` (the local `image_path` is read before its only assignment
at line 151); its exact rendering varies across Python versions, so it is held
abstract here. -/
def imagePathUnboundMsg : Str :=
  "cannot access local variable image_path where it is not associated with a value".data

/-- The endpoint exactly as shipped: for any request that passes the
`dream_text` check, the call to `generate_dream_comic` at line 346 raises
`UnboundLocalError` at its line 98 (see the note above `ChatOutcome`), which the
`except` of lines 383-384 turns into a 500 response with the exception text.  The
session directory has already been created at line 340 by then. -/
def api_generate_comic_shipped (dream prompt : Option Str) : ApiResponse × ApiEffects :=
  let dream_text := getDreamText dream prompt
  if !pyTruthy dream_text then (.clientError missingMsg, ⟨false, false⟩)
  else (.serverError imagePathUnboundMsg, ⟨true, true⟩)

/-! ## Denotations used by the theorem statements -/

/-- The description accumulated for the current panel after its marker line:
start from `v` (the trimmed text after the marker's colon) and append each
non-blank continuation line, trimmed, separated by a single space — the loop
arm of line 231-233 iterated over the continuation lines. -/
def appendConts (v : Str) (cs : List Str) : Str :=
  cs.foldl (fun a c => if (pyStrip c).isEmpty then a else a ++ ' ' :: pyStrip c) v

/-- The value stored under `f"panel{i}_image"` by the image loop (lines 153-162):
the saved path on success, `"Failed to generate image"` on a failed call,
`"No valid description for image generation"` when the panel was skipped. -/
def imageOutcome (imgOk : Nat → Bool) (dir : Str) (d : List (Str × Str)) (i : Nat) : Str :=
  if validDesc (descOf d i) then
    (if imgOk i then pyJoin dir (panelPngName i) else failedImageMsg)
  else noValidImageMsg

/-- The value stored under `f"panel{i}_chinese"` by the translation loop
(lines 169-187): the translation result (which is the original text when the call
raises) for a valid description, `"Translation not available"` otherwise. -/
def chineseOutcome (tro : Str → Option Str) (d : List (Str × Str)) (i : Nat) : Str :=
  if validDesc (descOf d i) then translate_to_traditional_chinese tro (descOf d i)
  else notAvailableMsg

/-! ## Association-list lemmas -/

lemma alistHas_eq_isSome {α : Type} (d : List (Str × α)) (key : Str) :
    alistHas d key = (alistGet? d key).isSome := by
  induction d with
  | nil => rfl
  | cons p rest ih =>
    obtain ⟨k, v⟩ := p
    by_cases h : k = key
    · simp [alistHas, alistGet?, h]
    · simp [alistHas, alistGet?, h, ih]

lemma alistGet?_map_overwrite {α : Type} (d : List (Str × α)) (key key' : Str) (v : α)
    (h : key' ≠ key) :
    alistGet? (d.map (fun p => if p.1 = key then (key, v) else p)) key' =
      alistGet? d key' := by
  induction d with
  | nil => rfl
  | cons p rest ih =>
    obtain ⟨k, w⟩ := p
    by_cases hk : k = key
    · subst hk
      have hmap : List.map (fun p => if p.1 = k then (k, v) else p) ((k, w) :: rest)
          = (k, v) :: List.map (fun p => if p.1 = k then (k, v) else p) rest := by simp
      have hne : ¬ k = key' := fun hh => h hh.symm
      rw [hmap]
      simp only [alistGet?, if_neg hne, ih]
    · have hmap : List.map (fun p => if p.1 = key then (key, v) else p) ((k, w) :: rest)
          = (k, w) :: List.map (fun p => if p.1 = key then (key, v) else p) rest := by
        simp [hk]
      rw [hmap]
      by_cases hk' : k = key'
      · simp only [alistGet?, if_pos hk']
      · simp only [alistGet?, if_neg hk', ih]

lemma alistGet?_append_single_ne {α : Type} (d : List (Str × α)) (key key' : Str) (v : α)
    (h : key' ≠ key) :
    alistGet? (d ++ [(key, v)]) key' = alistGet? d key' := by
  induction d with
  | nil =>
    have hne : ¬ key = key' := fun hh => h hh.symm
    simp [alistGet?, hne]
  | cons p rest ih =>
    obtain ⟨k, w⟩ := p
    by_cases hk : k = key'
    · simp only [List.cons_append, alistGet?, if_pos hk]
    · simp only [List.cons_append, alistGet?, if_neg hk]
      exact ih

lemma alistGet?_set_ne {α : Type} (d : List (Str × α)) (key key' : Str) (v : α)
    (h : key' ≠ key) :
    alistGet? (alistSet d key v) key' = alistGet? d key' := by
  unfold alistSet
  split
  · exact alistGet?_map_overwrite d key key' v h
  · exact alistGet?_append_single_ne d key key' v h

lemma alistGet?_map_overwrite_self {α : Type} (d : List (Str × α)) (key : Str) (v : α)
    (h : alistHas d key = true) :
    alistGet? (d.map (fun p => if p.1 = key then (key, v) else p)) key = some v := by
  induction d with
  | nil => simp [alistHas] at h
  | cons p rest ih =>
    obtain ⟨k, w⟩ := p
    by_cases hk : k = key
    · subst hk
      have hmap : List.map (fun p => if p.1 = k then (k, v) else p) ((k, w) :: rest)
          = (k, v) :: List.map (fun p => if p.1 = k then (k, v) else p) rest := by simp
      rw [hmap]
      simp [alistGet?]
    · have hmap : List.map (fun p => if p.1 = key then (key, v) else p) ((k, w) :: rest)
          = (k, w) :: List.map (fun p => if p.1 = key then (key, v) else p) rest := by
        simp [hk]
      have hrest : alistHas rest key = true := by simpa [alistHas, hk] using h
      rw [hmap]
      simp only [alistGet?, if_neg hk, ih hrest]

lemma alistGet?_append_single_self {α : Type} (d : List (Str × α)) (key : Str) (v : α)
    (h : ¬ alistHas d key = true) :
    alistGet? (d ++ [(key, v)]) key = some v := by
  induction d with
  | nil => simp [alistGet?]
  | cons p rest ih =>
    obtain ⟨k, w⟩ := p
    have hk : ¬ k = key := by
      intro hh
      simp [alistHas, hh] at h
    have hrest : ¬ alistHas rest key = true := by simpa [alistHas, hk] using h
    simp only [List.cons_append, alistGet?, if_neg hk]
    exact ih hrest

lemma alistGet?_set_self {α : Type} (d : List (Str × α)) (key : Str) (v : α) :
    alistGet? (alistSet d key v) key = some v := by
  unfold alistSet
  split
  · rename_i h
    exact alistGet?_map_overwrite_self d key v h
  · rename_i h
    exact alistGet?_append_single_self d key v h

/-! ## Lemmas about one step of the extractor loop -/

lemma stepLine_marker (s : ExtractState) (line : Str) (i : Nat)
    (hi : i ∈ ([1, 2, 3, 4] : List Nat)) (hm : lineMatches i line = true)
    (hlow : ∀ j ∈ ([1, 2, 3, 4] : List Nat), j < i → lineMatches j line = false) :
    stepLine s line = ⟨alistSet s.panels (panelKey i) (colonInit line), some i⟩ := by
  have hi' : i = 1 ∨ i = 2 ∨ i = 3 ∨ i = 4 := by simpa using hi
  rcases hi' with rfl | rfl | rfl | rfl
  · simp [stepLine, hm]
  · have h1 := hlow 1 (by simp) (by norm_num)
    simp [stepLine, h1, hm]
  · have h1 := hlow 1 (by simp) (by norm_num)
    have h2 := hlow 2 (by simp) (by norm_num)
    simp [stepLine, h1, h2, hm]
  · have h1 := hlow 1 (by simp) (by norm_num)
    have h2 := hlow 2 (by simp) (by norm_num)
    have h3 := hlow 3 (by simp) (by norm_num)
    simp [stepLine, h1, h2, h3, hm]

lemma stepLine_none (d : List (Str × Str)) (line : Str)
    (hnm : ∀ k ∈ ([1, 2, 3, 4] : List Nat), lineMatches k line = false) :
    stepLine ⟨d, none⟩ line = ⟨d, none⟩ := by
  have h1 := hnm 1 (by simp)
  have h2 := hnm 2 (by simp)
  have h3 := hnm 3 (by simp)
  have h4 := hnm 4 (by simp)
  simp [stepLine, h1, h2, h3, h4]

lemma stepLine_cont_blank (d : List (Str × Str)) (i : Nat) (line : Str)
    (hnm : ∀ k ∈ ([1, 2, 3, 4] : List Nat), lineMatches k line = false)
    (hb : (pyStrip line).isEmpty = true) :
    stepLine ⟨d, some i⟩ line = ⟨d, some i⟩ := by
  have h1 := hnm 1 (by simp)
  have h2 := hnm 2 (by simp)
  have h3 := hnm 3 (by simp)
  have h4 := hnm 4 (by simp)
  simp [stepLine, h1, h2, h3, h4, hb]

lemma stepLine_cont_append (d : List (Str × Str)) (i : Nat) (line : Str)
    (hnm : ∀ k ∈ ([1, 2, 3, 4] : List Nat), lineMatches k line = false)
    (hb : (pyStrip line).isEmpty = false) :
    stepLine ⟨d, some i⟩ line =
      ⟨alistSet d (panelKey i)
        (((alistGet? d (panelKey i)).getD []) ++ ' ' :: pyStrip line), some i⟩ := by
  have h1 := hnm 1 (by simp)
  have h2 := hnm 2 (by simp)
  have h3 := hnm 3 (by simp)
  have h4 := hnm 4 (by simp)
  simp [stepLine, h1, h2, h3, h4, hb]

/-! ## The extractor fold over lines -/

lemma appendConts_cons_blank (v c : Str) (cs : List Str)
    (hb : (pyStrip c).isEmpty = true) :
    appendConts v (c :: cs) = appendConts v cs := by
  have h : pyStrip c = [] := by simpa using hb
  simp [appendConts, h]

lemma appendConts_cons_append (v c : Str) (cs : List Str)
    (hb : (pyStrip c).isEmpty = false) :
    appendConts v (c :: cs) = appendConts (v ++ ' ' :: pyStrip c) cs := by
  have h : ¬ pyStrip c = [] := by simpa using hb
  simp [appendConts, h]

lemma foldl_conts (cs : List Str) (d : List (Str × Str)) (i : Nat) (v : Str)
    (hv : alistGet? d (panelKey i) = some v)
    (hnm : ∀ c ∈ cs, ∀ k ∈ ([1, 2, 3, 4] : List Nat), lineMatches k c = false) :
    ∃ d', cs.foldl stepLine ⟨d, some i⟩ = ⟨d', some i⟩ ∧
      alistGet? d' (panelKey i) = some (appendConts v cs) ∧
      ∀ key, key ≠ panelKey i → alistGet? d' key = alistGet? d key := by
  induction cs generalizing d v with
  | nil =>
    refine ⟨d, rfl, ?_, fun _ _ => rfl⟩
    simpa [appendConts] using hv
  | cons c cs ih =>
    have hc := hnm c (by simp)
    have hnm' : ∀ c' ∈ cs, ∀ k ∈ ([1, 2, 3, 4] : List Nat), lineMatches k c' = false :=
      fun c' hc' => hnm c' (by simp [hc'])
    by_cases hb : (pyStrip c).isEmpty = true
    · rw [List.foldl_cons, stepLine_cont_blank d i c hc hb, appendConts_cons_blank v c cs hb]
      exact ih d v hv hnm'
    · have hb' : (pyStrip c).isEmpty = false := by simpa using hb
      rw [List.foldl_cons, stepLine_cont_append d i c hc hb',
        appendConts_cons_append v c cs hb']
      have hv' : (alistGet? d (panelKey i)).getD [] = v := by rw [hv]; rfl
      rw [hv']
      obtain ⟨d', heq, hget, hpres⟩ :=
        ih (alistSet d (panelKey i) (v ++ ' ' :: pyStrip c)) (v ++ ' ' :: pyStrip c)
          (alistGet?_set_self _ _ _) hnm'
      exact ⟨d', heq, hget,
        fun key hk => (hpres key hk).trans (alistGet?_set_ne _ _ _ _ hk)⟩

lemma foldl_segment (lk : Str) (cs : List Str) (d : List (Str × Str)) (cur : Option Nat)
    (i : Nat) (hi : i ∈ ([1, 2, 3, 4] : List Nat)) (hm : lineMatches i lk = true)
    (hlow : ∀ j ∈ ([1, 2, 3, 4] : List Nat), j < i → lineMatches j lk = false)
    (hnm : ∀ c ∈ cs, ∀ k ∈ ([1, 2, 3, 4] : List Nat), lineMatches k c = false) :
    ∃ d', (lk :: cs).foldl stepLine ⟨d, cur⟩ = ⟨d', some i⟩ ∧
      alistGet? d' (panelKey i) = some (appendConts (colonInit lk) cs) ∧
      ∀ key, key ≠ panelKey i → alistGet? d' key = alistGet? d key := by
  rw [List.foldl_cons, stepLine_marker ⟨d, cur⟩ lk i hi hm hlow]
  obtain ⟨d', heq, hget, hpres⟩ :=
    foldl_conts cs (alistSet d (panelKey i) (colonInit lk)) i (colonInit lk)
      (alistGet?_set_self _ _ _) hnm
  exact ⟨d', heq, hget,
    fun key hk => (hpres key hk).trans (alistGet?_set_ne _ _ _ _ hk)⟩

lemma foldl_none_id (ls : List Str) (d : List (Str × Str))
    (hnm : ∀ line ∈ ls, ∀ k ∈ ([1, 2, 3, 4] : List Nat), lineMatches k line = false) :
    ls.foldl stepLine ⟨d, none⟩ = ⟨d, none⟩ := by
  induction ls with
  | nil => rfl
  | cons c cs ih =>
    rw [List.foldl_cons, stepLine_none d c (hnm c (by simp))]
    exact ih fun l hl => hnm l (by simp [hl])

/-! ## The fill loop -/

lemma fillStep_get_self (d : List (Str × Str)) (i : Nat) :
    alistGet? (fillStep d i) (panelKey i)
      = some ((alistGet? d (panelKey i)).getD (placeholderFor i)) := by
  by_cases h : alistHas d (panelKey i) = true
  · rw [alistHas_eq_isSome] at h
    obtain ⟨v, hv⟩ := Option.isSome_iff_exists.mp h
    have h' : alistHas d (panelKey i) = true := by rw [alistHas_eq_isSome, hv]; rfl
    simp [fillStep, h', hv]
  · have hnone : alistGet? d (panelKey i) = none := by
      rw [alistHas_eq_isSome] at h
      cases hh : alistGet? d (panelKey i) with
      | none => rfl
      | some v => rw [hh] at h; simp at h
    have h' : alistHas d (panelKey i) = false := by
      rw [alistHas_eq_isSome, hnone]; rfl
    simp [fillStep, h', hnone, alistGet?_set_self]

lemma fillStep_get_other (d : List (Str × Str)) (i j : Nat) (h : panelKey j ≠ panelKey i) :
    alistGet? (fillStep d i) (panelKey j) = alistGet? d (panelKey j) := by
  unfold fillStep
  split
  · rfl
  · exact alistGet?_set_ne _ _ _ _ h

lemma fillMissing_eq (d : List (Str × Str)) :
    fillMissing d = fillStep (fillStep (fillStep (fillStep d 1) 2) 3) 4 := rfl

lemma fill_get (d : List (Str × Str)) (k : Nat) (hk : k ∈ ([1, 2, 3, 4] : List Nat)) :
    alistGet? (fillMissing d) (panelKey k)
      = some ((alistGet? d (panelKey k)).getD (placeholderFor k)) := by
  have hk' : k = 1 ∨ k = 2 ∨ k = 3 ∨ k = 4 := by simpa using hk
  rw [fillMissing_eq]
  rcases hk' with rfl | rfl | rfl | rfl
  · rw [fillStep_get_other _ 4 1 (by decide), fillStep_get_other _ 3 1 (by decide),
      fillStep_get_other _ 2 1 (by decide), fillStep_get_self]
  · rw [fillStep_get_other _ 4 2 (by decide), fillStep_get_other _ 3 2 (by decide),
      fillStep_get_self, fillStep_get_other _ 1 2 (by decide)]
  · rw [fillStep_get_other _ 4 3 (by decide), fillStep_get_self,
      fillStep_get_other _ 2 3 (by decide), fillStep_get_other _ 1 3 (by decide)]
  · rw [fillStep_get_self, fillStep_get_other _ 3 4 (by decide),
      fillStep_get_other _ 2 4 (by decide), fillStep_get_other _ 1 4 (by decide)]

/-! ## Distinctness of the dict keys -/

lemma panelKey_ne_imageKey :
    ∀ k ∈ ([1, 2, 3, 4] : List Nat), ∀ i ∈ ([1, 2, 3, 4] : List Nat),
      panelKey k ≠ imageKey i := by decide

lemma panelKey_ne_chineseKey :
    ∀ k ∈ ([1, 2, 3, 4] : List Nat), ∀ i ∈ ([1, 2, 3, 4] : List Nat),
      panelKey k ≠ chineseKey i := by decide

lemma imageKey_ne_chineseKey :
    ∀ k ∈ ([1, 2, 3, 4] : List Nat), ∀ i ∈ ([1, 2, 3, 4] : List Nat),
      imageKey k ≠ chineseKey i := by decide

lemma imageKey_inj_ne :
    ∀ k ∈ ([1, 2, 3, 4] : List Nat), ∀ i ∈ ([1, 2, 3, 4] : List Nat),
      k ≠ i → imageKey k ≠ imageKey i := by decide

lemma chineseKey_inj_ne :
    ∀ k ∈ ([1, 2, 3, 4] : List Nat), ∀ i ∈ ([1, 2, 3, 4] : List Nat),
      k ≠ i → chineseKey k ≠ chineseKey i := by decide

/-! ## The image loop -/

lemma imgStep_dict (imgOk : Nat → Bool) (dir : Str) (acc : List (Str × Str) × List Str)
    (i : Nat) :
    ∃ w, (imgStep imgOk dir acc i).1 = alistSet acc.1 (imageKey i) w := by
  unfold imgStep generate_image
  by_cases hv : validDesc (descOf acc.1 i) = true
  · by_cases ho : imgOk i = true
    · exact ⟨pyJoin dir (panelPngName i), by simp [hv, ho]⟩
    · have ho' : imgOk i = false := by simpa using ho
      exact ⟨failedImageMsg, by simp [hv, ho']⟩
  · have hv' : validDesc (descOf acc.1 i) = false := by simpa using hv
    exact ⟨noValidImageMsg, by simp [hv']⟩

lemma imgStep_get_ne (imgOk : Nat → Bool) (dir : Str) (acc : List (Str × Str) × List Str)
    (i : Nat) (key : Str) (h : key ≠ imageKey i) :
    alistGet? (imgStep imgOk dir acc i).1 key = alistGet? acc.1 key := by
  obtain ⟨w, hw⟩ := imgStep_dict imgOk dir acc i
  rw [hw, alistGet?_set_ne _ _ _ _ h]

lemma imgStep_log (imgOk : Nat → Bool) (dir : Str) (acc : List (Str × Str) × List Str)
    (i : Nat) :
    (imgStep imgOk dir acc i).2 =
      acc.2 ++ (if validDesc (descOf acc.1 i) = true then [descOf acc.1 i] else []) := by
  unfold imgStep generate_image
  by_cases hv : validDesc (descOf acc.1 i) = true
  · by_cases ho : imgOk i = true
    · simp [hv, ho]
    · have ho' : imgOk i = false := by simpa using ho
      simp [hv, ho']
  · have hv' : validDesc (descOf acc.1 i) = false := by simpa using hv
    simp [hv']

lemma imgStep_get_self (imgOk : Nat → Bool) (dir : Str) (acc : List (Str × Str) × List Str)
    (i : Nat) :
    alistGet? (imgStep imgOk dir acc i).1 (imageKey i)
      = some (imageOutcome imgOk dir acc.1 i) := by
  unfold imgStep imageOutcome generate_image
  by_cases hv : validDesc (descOf acc.1 i) = true
  · by_cases ho : imgOk i = true
    · simp [hv, ho, alistGet?_set_self]
    · have ho' : imgOk i = false := by simpa using ho
      simp [hv, ho', alistGet?_set_self]
  · have hv' : validDesc (descOf acc.1 i) = false := by simpa using hv
    simp [hv', alistGet?_set_self]

lemma imgFold_get_ne (imgOk : Nat → Bool) (dir : Str) (idxs : List Nat) :
    ∀ (acc : List (Str × Str) × List Str) (key : Str),
      (∀ i ∈ idxs, key ≠ imageKey i) →
      alistGet? (idxs.foldl (imgStep imgOk dir) acc).1 key = alistGet? acc.1 key := by
  induction idxs with
  | nil => intro acc key _; rfl
  | cons i rest ih =>
    intro acc key h
    rw [List.foldl_cons, ih _ _ fun j hj => h j (by simp [hj])]
    exact imgStep_get_ne _ _ _ _ _ (h i (by simp))

lemma imgFold_log (imgOk : Nat → Bool) (dir : Str) (idxs : List Nat) :
    ∀ (acc : List (Str × Str) × List Str),
      (∀ i ∈ idxs, i ∈ ([1, 2, 3, 4] : List Nat)) →
      (idxs.foldl (imgStep imgOk dir) acc).2 =
        acc.2 ++ (idxs.filter (fun i => validDesc (descOf acc.1 i))).map
          (fun i => descOf acc.1 i) := by
  induction idxs with
  | nil => intro acc _; simp
  | cons i rest ih =>
    intro acc hs
    rw [List.foldl_cons, ih _ fun j hj => hs j (by simp [hj])]
    have hdesc : ∀ j ∈ ([1, 2, 3, 4] : List Nat),
        descOf (imgStep imgOk dir acc i).1 j = descOf acc.1 j := by
      intro j hj
      unfold descOf
      rw [imgStep_get_ne _ _ _ _ _ (panelKey_ne_imageKey j hj i (hs i (by simp)))]
    have hfilter : rest.filter (fun j => validDesc (descOf (imgStep imgOk dir acc i).1 j))
        = rest.filter (fun j => validDesc (descOf acc.1 j)) := by
      apply List.filter_congr
      intro j hj
      rw [hdesc j (hs j (by simp [hj]))]
    rw [hfilter]
    have hmap : (rest.filter (fun j => validDesc (descOf acc.1 j))).map
          (fun j => descOf (imgStep imgOk dir acc i).1 j)
        = (rest.filter (fun j => validDesc (descOf acc.1 j))).map
          (fun j => descOf acc.1 j) := by
      apply List.map_congr_left
      intro j hj
      exact hdesc j (hs j (by simp [(List.mem_filter.mp hj).1]))
    rw [hmap, imgStep_log]
    by_cases hv : validDesc (descOf acc.1 i) = true
    · simp [hv, List.filter_cons, List.append_assoc]
    · have hv' : validDesc (descOf acc.1 i) = false := by simpa using hv
      simp [hv', List.filter_cons]

lemma imgFold_image (imgOk : Nat → Bool) (dir : Str) (idxs : List Nat) :
    ∀ (acc : List (Str × Str) × List Str) (i : Nat),
      (∀ m ∈ idxs, m ∈ ([1, 2, 3, 4] : List Nat)) → idxs.Nodup → i ∈ idxs →
      alistGet? (idxs.foldl (imgStep imgOk dir) acc).1 (imageKey i)
        = some (imageOutcome imgOk dir acc.1 i) := by
  induction idxs with
  | nil => intro acc i _ _ hi; cases hi
  | cons j rest ih =>
    intro acc i hs hnd hi
    rw [List.foldl_cons]
    rcases List.mem_cons.mp hi with rfl | hmem
    · have hpres : ∀ m ∈ rest, imageKey i ≠ imageKey m := by
        intro m hm
        have hne : i ≠ m := by
          intro hh
          exact (List.nodup_cons.mp hnd).1 (hh ▸ hm)
        exact imageKey_inj_ne i (hs i (by simp)) m (hs m (by simp [hm])) hne
      rw [imgFold_get_ne imgOk dir rest _ _ hpres]
      exact imgStep_get_self imgOk dir acc i
    · rw [ih _ i (fun m hm => hs m (by simp [hm])) (List.nodup_cons.mp hnd).2 hmem]
      unfold imageOutcome descOf
      rw [imgStep_get_ne _ _ _ _ _
        (panelKey_ne_imageKey i (hs i (by simp [hmem])) j (hs j (by simp)))]

/-! ## The translation loop -/

lemma trStep_dict (tro : Str → Option Str) (acc : List (Str × Str) × List Str) (i : Nat) :
    ∃ w, (trStep tro acc i).1 = alistSet acc.1 (chineseKey i) w := by
  unfold trStep
  by_cases hv : validDesc (descOf acc.1 i) = true
  · exact ⟨translate_to_traditional_chinese tro (descOf acc.1 i), by simp [hv]⟩
  · have hv' : validDesc (descOf acc.1 i) = false := by simpa using hv
    exact ⟨notAvailableMsg, by simp [hv']⟩

lemma trStep_get_ne (tro : Str → Option Str) (acc : List (Str × Str) × List Str)
    (i : Nat) (key : Str) (h : key ≠ chineseKey i) :
    alistGet? (trStep tro acc i).1 key = alistGet? acc.1 key := by
  obtain ⟨w, hw⟩ := trStep_dict tro acc i
  rw [hw, alistGet?_set_ne _ _ _ _ h]

lemma trStep_log (tro : Str → Option Str) (acc : List (Str × Str) × List Str) (i : Nat) :
    (trStep tro acc i).2 =
      acc.2 ++ (if validDesc (descOf acc.1 i) = true then [descOf acc.1 i] else []) := by
  unfold trStep
  by_cases hv : validDesc (descOf acc.1 i) = true
  · simp [hv]
  · have hv' : validDesc (descOf acc.1 i) = false := by simpa using hv
    simp [hv']

lemma trStep_get_self (tro : Str → Option Str) (acc : List (Str × Str) × List Str)
    (i : Nat) :
    alistGet? (trStep tro acc i).1 (chineseKey i)
      = some (chineseOutcome tro acc.1 i) := by
  unfold trStep chineseOutcome
  by_cases hv : validDesc (descOf acc.1 i) = true
  · simp [hv, alistGet?_set_self]
  · have hv' : validDesc (descOf acc.1 i) = false := by simpa using hv
    simp [hv', alistGet?_set_self]

lemma trFold_get_ne (tro : Str → Option Str) (idxs : List Nat) :
    ∀ (acc : List (Str × Str) × List Str) (key : Str),
      (∀ i ∈ idxs, key ≠ chineseKey i) →
      alistGet? (idxs.foldl (trStep tro) acc).1 key = alistGet? acc.1 key := by
  induction idxs with
  | nil => intro acc key _; rfl
  | cons i rest ih =>
    intro acc key h
    rw [List.foldl_cons, ih _ _ fun j hj => h j (by simp [hj])]
    exact trStep_get_ne _ _ _ _ (h i (by simp))

lemma trFold_log (tro : Str → Option Str) (idxs : List Nat) :
    ∀ (acc : List (Str × Str) × List Str),
      (∀ i ∈ idxs, i ∈ ([1, 2, 3, 4] : List Nat)) →
      (idxs.foldl (trStep tro) acc).2 =
        acc.2 ++ (idxs.filter (fun i => validDesc (descOf acc.1 i))).map
          (fun i => descOf acc.1 i) := by
  induction idxs with
  | nil => intro acc _; simp
  | cons i rest ih =>
    intro acc hs
    rw [List.foldl_cons, ih _ fun j hj => hs j (by simp [hj])]
    have hdesc : ∀ j ∈ ([1, 2, 3, 4] : List Nat),
        descOf (trStep tro acc i).1 j = descOf acc.1 j := by
      intro j hj
      unfold descOf
      rw [trStep_get_ne _ _ _ _ (panelKey_ne_chineseKey j hj i (hs i (by simp)))]
    have hfilter : rest.filter (fun j => validDesc (descOf (trStep tro acc i).1 j))
        = rest.filter (fun j => validDesc (descOf acc.1 j)) := by
      apply List.filter_congr
      intro j hj
      rw [hdesc j (hs j (by simp [hj]))]
    rw [hfilter]
    have hmap : (rest.filter (fun j => validDesc (descOf acc.1 j))).map
          (fun j => descOf (trStep tro acc i).1 j)
        = (rest.filter (fun j => validDesc (descOf acc.1 j))).map
          (fun j => descOf acc.1 j) := by
      apply List.map_congr_left
      intro j hj
      exact hdesc j (hs j (by simp [(List.mem_filter.mp hj).1]))
    rw [hmap, trStep_log]
    by_cases hv : validDesc (descOf acc.1 i) = true
    · simp [hv, List.filter_cons, List.append_assoc]
    · have hv' : validDesc (descOf acc.1 i) = false := by simpa using hv
      simp [hv', List.filter_cons]

lemma trFold_chinese (tro : Str → Option Str) (idxs : List Nat) :
    ∀ (acc : List (Str × Str) × List Str) (i : Nat),
      (∀ m ∈ idxs, m ∈ ([1, 2, 3, 4] : List Nat)) → idxs.Nodup → i ∈ idxs →
      alistGet? (idxs.foldl (trStep tro) acc).1 (chineseKey i)
        = some (chineseOutcome tro acc.1 i) := by
  induction idxs with
  | nil => intro acc i _ _ hi; cases hi
  | cons j rest ih =>
    intro acc i hs hnd hi
    rw [List.foldl_cons]
    rcases List.mem_cons.mp hi with rfl | hmem
    · have hpres : ∀ m ∈ rest, chineseKey i ≠ chineseKey m := by
        intro m hm
        have hne : i ≠ m := by
          intro hh
          exact (List.nodup_cons.mp hnd).1 (hh ▸ hm)
        exact chineseKey_inj_ne i (hs i (by simp)) m (hs m (by simp [hm])) hne
      rw [trFold_get_ne tro rest _ _ hpres]
      exact trStep_get_self tro acc i
    · rw [ih _ i (fun m hm => hs m (by simp [hm])) (List.nodup_cons.mp hnd).2 hmem]
      unfold chineseOutcome descOf
      rw [trStep_get_ne _ _ _ _
        (panelKey_ne_chineseKey i (hs i (by simp [hmem])) j (hs j (by simp)))]

/-! ## Characterization of a successful run of the generation body -/

lemma body_ok_eq (text content dir : Str) (imgOk : Nat → Bool) (tro : Str → Option Str) :
    generate_dream_comic_body (.resp 200 text content) true dir true imgOk tro =
      ⟨(transLoop tro (imageLoop imgOk dir (extract_panels content)).1).1,
       (imageLoop imgOk dir (extract_panels content)).2,
       (transLoop tro (imageLoop imgOk dir (extract_panels content)).1).2⟩ := rfl

lemma loopIdx_nodup : ([1, 2, 3, 4] : List Nat).Nodup := by decide

lemma body_desc (text content dir : Str) (imgOk : Nat → Bool) (tro : Str → Option Str)
    (k : Nat) (hk : k ∈ ([1, 2, 3, 4] : List Nat)) :
    alistGet? (generate_dream_comic_body (.resp 200 text content) true dir true imgOk tro).comic
        (panelKey k)
      = alistGet? (extract_panels content) (panelKey k) := by
  rw [body_ok_eq]
  unfold transLoop imageLoop
  rw [trFold_get_ne tro _ _ _ fun i hi => panelKey_ne_chineseKey k hk i hi]
  exact imgFold_get_ne imgOk dir _ _ _ fun i hi => panelKey_ne_imageKey k hk i hi

lemma body_image (text content dir : Str) (imgOk : Nat → Bool) (tro : Str → Option Str)
    (k : Nat) (hk : k ∈ ([1, 2, 3, 4] : List Nat)) :
    alistGet? (generate_dream_comic_body (.resp 200 text content) true dir true imgOk tro).comic
        (imageKey k)
      = some (imageOutcome imgOk dir (extract_panels content) k) := by
  rw [body_ok_eq]
  unfold transLoop imageLoop
  rw [trFold_get_ne tro _ _ _ fun i hi => imageKey_ne_chineseKey k hk i hi]
  exact imgFold_image imgOk dir _ _ k (fun m hm => hm) loopIdx_nodup hk

lemma body_chinese (text content dir : Str) (imgOk : Nat → Bool) (tro : Str → Option Str)
    (k : Nat) (hk : k ∈ ([1, 2, 3, 4] : List Nat)) :
    alistGet? (generate_dream_comic_body (.resp 200 text content) true dir true imgOk tro).comic
        (chineseKey k)
      = some (chineseOutcome tro (extract_panels content) k) := by
  rw [body_ok_eq]
  unfold transLoop
  rw [trFold_chinese tro _ _ k (fun m hm => hm) loopIdx_nodup hk]
  unfold chineseOutcome descOf
  rw [show alistGet? (imageLoop imgOk dir (extract_panels content)).1 (panelKey k)
        = alistGet? (extract_panels content) (panelKey k) from by
      unfold imageLoop
      exact imgFold_get_ne imgOk dir _ _ _ fun i hi => panelKey_ne_imageKey k hk i hi]

lemma body_imageCalls (text content dir : Str) (imgOk : Nat → Bool) (tro : Str → Option Str) :
    (generate_dream_comic_body (.resp 200 text content) true dir true imgOk tro).imageCalls
      = (([1, 2, 3, 4] : List Nat).filter
          (fun i => validDesc (descOf (extract_panels content) i))).map
          (fun i => descOf (extract_panels content) i) := by
  rw [body_ok_eq]
  unfold imageLoop
  rw [imgFold_log imgOk dir _ _ fun m hm => hm]
  simp

lemma body_transCalls (text content dir : Str) (imgOk : Nat → Bool) (tro : Str → Option Str) :
    (generate_dream_comic_body (.resp 200 text content) true dir true imgOk tro).transCalls
      = (([1, 2, 3, 4] : List Nat).filter
          (fun i => validDesc (descOf (extract_panels content) i))).map
          (fun i => descOf (extract_panels content) i) := by
  rw [body_ok_eq]
  unfold transLoop
  rw [trFold_log tro _ _ fun m hm => hm]
  have hdesc : ∀ j ∈ ([1, 2, 3, 4] : List Nat),
      descOf (imageLoop imgOk dir (extract_panels content)).1 j
        = descOf (extract_panels content) j := by
    intro j hj
    unfold descOf imageLoop
    rw [imgFold_get_ne imgOk dir _ _ _ fun i hi => panelKey_ne_imageKey j hj i hi]
  have hfilter : ([1, 2, 3, 4] : List Nat).filter
        (fun j => validDesc (descOf (imageLoop imgOk dir (extract_panels content)).1 j))
      = ([1, 2, 3, 4] : List Nat).filter
        (fun j => validDesc (descOf (extract_panels content) j)) := by
    apply List.filter_congr
    intro j hj
    rw [hdesc j hj]
  rw [hfilter]
  have hmap : (([1, 2, 3, 4] : List Nat).filter
        (fun j => validDesc (descOf (extract_panels content) j))).map
        (fun j => descOf (imageLoop imgOk dir (extract_panels content)).1 j)
      = (([1, 2, 3, 4] : List Nat).filter
        (fun j => validDesc (descOf (extract_panels content) j))).map
        (fun j => descOf (extract_panels content) j) := by
    apply List.map_congr_left
    intro j hj
    exact hdesc j (List.mem_filter.mp hj).1
  rw [hmap]
  simp

lemma body_error_status (status : Nat) (text content dir : Str) (gi tc : Bool)
    (imgOk : Nat → Bool) (tro : Str → Option Str) (h : status ≠ 200) :
    generate_dream_comic_body (.resp status text content) gi dir tc imgOk tro
      = ⟨[(errorKey, text)], [], []⟩ := by
  simp [generate_dream_comic_body, h]

lemma body_error_exn (msg dir : Str) (gi tc : Bool)
    (imgOk : Nat → Bool) (tro : Str → Option Str) :
    generate_dream_comic_body (.exn msg) gi dir tc imgOk tro
      = ⟨[(errorKey, msg)], [], []⟩ := rfl

/-! ## Small facts about markers, colons, keys and the endpoint -/

lemma isPrefixB_mem : ∀ (p s : Str), isPrefixB p s = true → ∀ a ∈ p, a ∈ s := by
  intro p
  induction p with
  | nil => intro s _ a ha; cases ha
  | cons x xs ih =>
    intro s hp a ha
    cases s with
    | nil => simp [isPrefixB] at hp
    | cons y ys =>
      rw [isPrefixB, Bool.and_eq_true] at hp
      obtain ⟨hxy, hrest⟩ := hp
      have hxy' : x = y := by simpa using hxy
      rcases List.mem_cons.mp ha with rfl | hmem
      · exact hxy' ▸ List.mem_cons_self _ _
      · exact List.mem_cons_of_mem y (ih ys hrest a hmem)

lemma strInfix_mem : ∀ (l p : Str), strInfix p l = true → ∀ a ∈ p, a ∈ l := by
  intro l
  induction l with
  | nil =>
    intro p hp a ha
    rw [strInfix] at hp
    rw [List.isEmpty_iff.mp hp] at ha
    cases ha
  | cons c rest ih =>
    intro p hp a ha
    rw [strInfix, Bool.or_eq_true] at hp
    rcases hp with hpre | hrec
    · exact isPrefixB_mem p (c :: rest) hpre a ha
    · exact List.mem_cons_of_mem c (ih p hrec a ha)

lemma hasColon_of_mem : ∀ (l : Str), ':' ∈ l → hasColon l = true := by
  intro l
  induction l with
  | nil => intro h; cases h
  | cons c rest ih =>
    intro h
    by_cases hc : c = ':'
    · simp [hasColon, hc]
    · rcases List.mem_cons.mp h with h1 | h2
      · exact absurd h1.symm hc
      · simp [hasColon, hc, ih h2]

lemma lineMatches_of_markerC (i : Nat) (l : Str) (h : strInfix (markerC i) l = true) :
    lineMatches i l = true := by
  unfold lineMatches
  rw [h]
  rfl

lemma colonInit_of_markerC (i : Nat) (hi : i ∈ ([1, 2, 3, 4] : List Nat)) (l : Str)
    (h : strInfix (markerC i) l = true) :
    colonInit l = pyStrip (afterColon l) := by
  have hi' : i = 1 ∨ i = 2 ∨ i = 3 ∨ i = 4 := by simpa using hi
  have hcol : ':' ∈ markerC i := by
    rcases hi' with rfl | rfl | rfl | rfl <;> decide
  have hl : hasColon l = true := hasColon_of_mem l (strInfix_mem l (markerC i) h ':' hcol)
  simp [colonInit, hl]

lemma panelKey_inj_ne :
    ∀ k ∈ ([1, 2, 3, 4] : List Nat), ∀ i ∈ ([1, 2, 3, 4] : List Nat),
      k ≠ i → panelKey k ≠ panelKey i := by decide

lemma validDesc_placeholder :
    ∀ i ∈ ([1, 2, 3, 4] : List Nat), validDesc (placeholderFor i) = false := by decide

lemma errorKey_ne_panelKey :
    ∀ i ∈ ([1, 2, 3, 4] : List Nat), ¬ errorKey = panelKey i := by decide

lemma errorKey_ne_imageKey :
    ∀ i ∈ ([1, 2, 3, 4] : List Nat), ¬ errorKey = imageKey i := by decide

lemma errorKey_ne_chineseKey :
    ∀ i ∈ ([1, 2, 3, 4] : List Nat), ¬ errorKey = chineseKey i := by decide

lemma hlow_vacuous_one (l : Str) :
    ∀ j ∈ ([1, 2, 3, 4] : List Nat), j < 1 → lineMatches j l = false := by
  intro j hj hlt
  have : j = 1 ∨ j = 2 ∨ j = 3 ∨ j = 4 := by simpa using hj
  rcases this with rfl | rfl | rfl | rfl <;> omega

lemma hlow_two (l : Str) (h1 : lineMatches 1 l = false) :
    ∀ j ∈ ([1, 2, 3, 4] : List Nat), j < 2 → lineMatches j l = false := by
  intro j hj hlt
  have : j = 1 ∨ j = 2 ∨ j = 3 ∨ j = 4 := by simpa using hj
  rcases this with rfl | rfl | rfl | rfl
  · exact h1
  all_goals omega

lemma hlow_three (l : Str) (h1 : lineMatches 1 l = false) (h2 : lineMatches 2 l = false) :
    ∀ j ∈ ([1, 2, 3, 4] : List Nat), j < 3 → lineMatches j l = false := by
  intro j hj hlt
  have : j = 1 ∨ j = 2 ∨ j = 3 ∨ j = 4 := by simpa using hj
  rcases this with rfl | rfl | rfl | rfl
  · exact h1
  · exact h2
  all_goals omega

lemma hlow_four (l : Str) (h1 : lineMatches 1 l = false) (h2 : lineMatches 2 l = false)
    (h3 : lineMatches 3 l = false) :
    ∀ j ∈ ([1, 2, 3, 4] : List Nat), j < 4 → lineMatches j l = false := by
  intro j hj hlt
  have : j = 1 ∨ j = 2 ∨ j = 3 ∨ j = 4 := by simpa using hj
  rcases this with rfl | rfl | rfl | rfl
  · exact h1
  · exact h2
  · exact h3
  · omega

lemma alistGet?_map_panels {α : Type} (f : Nat → α) (k : Nat)
    (hk : k ∈ ([1, 2, 3, 4] : List Nat)) :
    alistGet? (([1, 2, 3, 4] : List Nat).map (fun i => (panelKey i, f i))) (panelKey k)
      = some (f k) := by
  have hk' : k = 1 ∨ k = 2 ∨ k = 3 ∨ k = 4 := by simpa using hk
  rcases hk' with rfl | rfl | rfl | rfl
  · simp [alistGet?]
  · simp [alistGet?, show ¬ panelKey 1 = panelKey 2 by decide]
  · simp [alistGet?, show ¬ panelKey 1 = panelKey 3 by decide,
      show ¬ panelKey 2 = panelKey 3 by decide]
  · simp [alistGet?, show ¬ panelKey 1 = panelKey 4 by decide,
      show ¬ panelKey 2 = panelKey 4 by decide, show ¬ panelKey 3 = panelKey 4 by decide]

lemma api_ok_eq (dream prompt : Option Str) (sid : Str) (chat : ChatOutcome)
    (imgOk : Nat → Bool) (tro : Str → Option Str) (fileEx : Str → Bool)
    (hd : pyTruthy (getDreamText dream prompt) = true) :
    api_generate_comic dream prompt sid chat imgOk tro fileEx =
      (.ok ⟨([1, 2, 3, 4] : List Nat).map (fun i => (panelKey i,
          assemblePanel (generate_dream_comic_body chat true (pyJoin outputFolder sid) true
            imgOk tro).comic sid fileEx i)), sid⟩,
       ⟨true, true⟩,
       (generate_dream_comic_body chat true (pyJoin outputFolder sid) true imgOk tro).imageCalls,
       (generate_dream_comic_body chat true (pyJoin outputFolder sid) true imgOk tro).transCalls) := by
  simp [api_generate_comic, hd]

lemma assemblePanel_error (msg sid : Str) (fileEx : Str → Bool) (i : Nat)
    (hi : i ∈ ([1, 2, 3, 4] : List Nat)) :
    assemblePanel [(errorKey, msg)] sid fileEx i = ⟨placeholderFor i, none, none⟩ := by
  have h1 : alistGet? [(errorKey, msg)] (panelKey i) = (none : Option Str) := by
    simp [alistGet?, errorKey_ne_panelKey i hi]
  have h2 : alistGet? [(errorKey, msg)] (chineseKey i) = (none : Option Str) := by
    simp [alistGet?, errorKey_ne_chineseKey i hi]
  have h3 : alistGet? [(errorKey, msg)] (imageKey i) = (none : Option Str) := by
    simp [alistGet?, errorKey_ne_imageKey i hi]
  simp [assemblePanel, h1, h2, h3]

/-! ## Claim theorems -/

/-- Claim C2: for any input text whose lines are, in order, a "Panel 1:" block,
then "Panel 2:", "Panel 3:" and "Panel 4:" blocks — each marker line containing the
literal `"Panel k:"`, not matching any lower-numbered marker, and no continuation
line matching any marker — extraction yields for each index exactly the trimmed
substring following that marker line's first colon, with each subsequent non-blank
line appended separated by a single space. -/
theorem extract_wellformed_four_markers
    (content l1 l2 l3 l4 : Str) (c1 c2 c3 c4 : List Str)
    (hsplit : pySplit content = l1 :: c1 ++ l2 :: c2 ++ l3 :: c3 ++ l4 :: c4)
    (hm1 : strInfix (markerC 1) l1 = true)
    (hm2 : strInfix (markerC 2) l2 = true)
    (hm3 : strInfix (markerC 3) l3 = true)
    (hm4 : strInfix (markerC 4) l4 = true)
    (h21 : lineMatches 1 l2 = false)
    (h31 : lineMatches 1 l3 = false) (h32 : lineMatches 2 l3 = false)
    (h41 : lineMatches 1 l4 = false) (h42 : lineMatches 2 l4 = false)
    (h43 : lineMatches 3 l4 = false)
    (hc : ∀ c, (c ∈ c1 ∨ c ∈ c2 ∨ c ∈ c3 ∨ c ∈ c4) →
      ∀ k ∈ ([1, 2, 3, 4] : List Nat), lineMatches k c = false) :
    alistGet? (extract_panels content) (panelKey 1)
        = some (appendConts (pyStrip (afterColon l1)) c1) ∧
    alistGet? (extract_panels content) (panelKey 2)
        = some (appendConts (pyStrip (afterColon l2)) c2) ∧
    alistGet? (extract_panels content) (panelKey 3)
        = some (appendConts (pyStrip (afterColon l3)) c3) ∧
    alistGet? (extract_panels content) (panelKey 4)
        = some (appendConts (pyStrip (afterColon l4)) c4) := by
  have hEx : extract_panels content
      = fillMissing ((pySplit content).foldl stepLine ⟨[], none⟩).panels := rfl
  have hsegs : (l1 :: c1 ++ l2 :: c2 ++ l3 :: c3 ++ l4 :: c4 : List Str)
      = (l1 :: c1) ++ ((l2 :: c2) ++ ((l3 :: c3) ++ (l4 :: c4))) := by simp
  obtain ⟨d1, heq1, hget1, hpres1⟩ :=
    foldl_segment l1 c1 [] none 1 (by simp) (lineMatches_of_markerC 1 l1 hm1)
      (hlow_vacuous_one l1) (fun c hcm => hc c (Or.inl hcm))
  obtain ⟨d2, heq2, hget2, hpres2⟩ :=
    foldl_segment l2 c2 d1 (some 1) 2 (by simp) (lineMatches_of_markerC 2 l2 hm2)
      (hlow_two l2 h21) (fun c hcm => hc c (Or.inr (Or.inl hcm)))
  obtain ⟨d3, heq3, hget3, hpres3⟩ :=
    foldl_segment l3 c3 d2 (some 2) 3 (by simp) (lineMatches_of_markerC 3 l3 hm3)
      (hlow_three l3 h31 h32) (fun c hcm => hc c (Or.inr (Or.inr (Or.inl hcm))))
  obtain ⟨d4, heq4, hget4, hpres4⟩ :=
    foldl_segment l4 c4 d3 (some 3) 4 (by simp) (lineMatches_of_markerC 4 l4 hm4)
      (hlow_four l4 h41 h42 h43) (fun c hcm => hc c (Or.inr (Or.inr (Or.inr hcm))))
  have hfold : ((l1 :: c1) ++ ((l2 :: c2) ++ ((l3 :: c3) ++ (l4 :: c4)))).foldl stepLine
      (⟨[], none⟩ : ExtractState) = ⟨d4, some 4⟩ := by
    rw [List.foldl_append, heq1, List.foldl_append, heq2, List.foldl_append, heq3, heq4]
  rw [hEx, hsplit, hsegs, hfold]
  refine ⟨?_, ?_, ?_, ?_⟩
  · rw [show (⟨d4, some 4⟩ : ExtractState).panels = d4 from rfl,
      fill_get d4 1 (by simp), hpres4 (panelKey 1) (by decide),
      hpres3 (panelKey 1) (by decide), hpres2 (panelKey 1) (by decide), hget1,
      colonInit_of_markerC 1 (by simp) l1 hm1]
    rfl
  · rw [show (⟨d4, some 4⟩ : ExtractState).panels = d4 from rfl,
      fill_get d4 2 (by simp), hpres4 (panelKey 2) (by decide),
      hpres3 (panelKey 2) (by decide), hget2,
      colonInit_of_markerC 2 (by simp) l2 hm2]
    rfl
  · rw [show (⟨d4, some 4⟩ : ExtractState).panels = d4 from rfl,
      fill_get d4 3 (by simp), hpres4 (panelKey 3) (by decide), hget3,
      colonInit_of_markerC 3 (by simp) l3 hm3]
    rfl
  · rw [show (⟨d4, some 4⟩ : ExtractState).panels = d4 from rfl,
      fill_get d4 4 (by simp), hget4, colonInit_of_markerC 4 (by simp) l4 hm4]
    rfl

/-- Witness for C2: the spec's example input yields "A cat.", "A dog.", "A bird.",
"A fish." and no placeholders. -/
theorem extract_wellformed_four_markers_witness :
    alistGet? (extract_panels
        "Panel 1: A cat.\nPanel 2: A dog.\nPanel 3: A bird.\nPanel 4: A fish.".data)
        (panelKey 1) = some "A cat.".data ∧
    alistGet? (extract_panels
        "Panel 1: A cat.\nPanel 2: A dog.\nPanel 3: A bird.\nPanel 4: A fish.".data)
        (panelKey 2) = some "A dog.".data ∧
    alistGet? (extract_panels
        "Panel 1: A cat.\nPanel 2: A dog.\nPanel 3: A bird.\nPanel 4: A fish.".data)
        (panelKey 3) = some "A bird.".data ∧
    alistGet? (extract_panels
        "Panel 1: A cat.\nPanel 2: A dog.\nPanel 3: A bird.\nPanel 4: A fish.".data)
        (panelKey 4) = some "A fish.".data := by
  have h := extract_wellformed_four_markers
    "Panel 1: A cat.\nPanel 2: A dog.\nPanel 3: A bird.\nPanel 4: A fish.".data
    "Panel 1: A cat.".data "Panel 2: A dog.".data "Panel 3: A bird.".data
    "Panel 4: A fish.".data [] [] [] []
    (by decide) (by decide) (by decide) (by decide) (by decide) (by decide)
    (by decide) (by decide) (by decide) (by decide) (by decide)
    (by rintro c (hcm | hcm | hcm | hcm) <;> cases hcm)
  exact ⟨h.1.trans (by decide), h.2.1.trans (by decide), h.2.2.1.trans (by decide),
    h.2.2.2.trans (by decide)⟩

/-- Claim C9: a line containing the marker text of more than one panel index is
assigned to the first matching index in the fixed order 1,2,3,4 — the lowest
matching index becomes the current panel and receives the line's colon suffix,
the other panels are untouched. -/
theorem marker_lowest_index_wins (s : ExtractState) (line : Str) (i : Nat)
    (hi : i ∈ ([1, 2, 3, 4] : List Nat)) (hm : lineMatches i line = true)
    (hlow : ∀ j ∈ ([1, 2, 3, 4] : List Nat), j < i → lineMatches j line = false) :
    (stepLine s line).current = some i ∧
    alistGet? (stepLine s line).panels (panelKey i) = some (colonInit line) ∧
    ∀ k ∈ ([1, 2, 3, 4] : List Nat), k ≠ i →
      alistGet? (stepLine s line).panels (panelKey k) = alistGet? s.panels (panelKey k) := by
  rw [stepLine_marker s line i hi hm hlow]
  exact ⟨rfl, alistGet?_set_self _ _ _,
    fun k hk hne => alistGet?_set_ne _ _ _ _ (panelKey_inj_ne k hk i hi hne)⟩

/-- Witness for C9: a line matching both "Panel 1" and "Panel 2" goes to panel 1. -/
theorem marker_lowest_index_wins_witness :
    lineMatches 1 "Panel 1: one Panel 2: two".data = true ∧
    lineMatches 2 "Panel 1: one Panel 2: two".data = true ∧
    (stepLine ⟨[], none⟩ "Panel 1: one Panel 2: two".data).current = some 1 ∧
    alistGet? (stepLine ⟨[], none⟩ "Panel 1: one Panel 2: two".data).panels (panelKey 1)
      = some "one Panel 2: two".data := by
  have h := marker_lowest_index_wins ⟨[], none⟩ "Panel 1: one Panel 2: two".data 1
    (by simp) (by decide) (hlow_vacuous_one _)
  exact ⟨by decide, by decide, h.1, h.2.1.trans (by decide)⟩

/-- Claim C5: for every input string the extractor returns a mapping containing all
four panel keys; an input none of whose lines matches any panel marker degrades to
four placeholder panels, and a generation run on such content issues zero
image-generation calls and zero translation calls. -/
theorem extractor_total_and_degrades :
    (∀ content : Str, ∀ k ∈ ([1, 2, 3, 4] : List Nat),
        (alistGet? (extract_panels content) (panelKey k)).isSome = true) ∧
    (∀ content : Str,
      (∀ line ∈ pySplit content, ∀ k ∈ ([1, 2, 3, 4] : List Nat),
          lineMatches k line = false) →
      (∀ k ∈ ([1, 2, 3, 4] : List Nat),
          alistGet? (extract_panels content) (panelKey k) = some (placeholderFor k)) ∧
      ∀ (text dir : Str) (imgOk : Nat → Bool) (tro : Str → Option Str),
        (generate_dream_comic_body (.resp 200 text content) true dir true
          imgOk tro).imageCalls = [] ∧
        (generate_dream_comic_body (.resp 200 text content) true dir true
          imgOk tro).transCalls = []) := by
  constructor
  · intro content k hk
    have hEx : extract_panels content
        = fillMissing ((pySplit content).foldl stepLine ⟨[], none⟩).panels := rfl
    rw [hEx, fill_get _ k hk]
    rfl
  · intro content hnm
    have hEx : extract_panels content
        = fillMissing ((pySplit content).foldl stepLine ⟨[], none⟩).panels := rfl
    have hfold := foldl_none_id (pySplit content) [] hnm
    have hplaceholder : ∀ k ∈ ([1, 2, 3, 4] : List Nat),
        alistGet? (extract_panels content) (panelKey k) = some (placeholderFor k) := by
      intro k hk
      rw [hEx, hfold, fill_get _ k hk]
      rfl
    refine ⟨hplaceholder, ?_⟩
    intro text dir imgOk tro
    have hfilter : ([1, 2, 3, 4] : List Nat).filter
        (fun i => validDesc (descOf (extract_panels content) i)) = [] := by
      rw [List.filter_eq_nil_iff]
      intro i hi
      have hd : descOf (extract_panels content) i = placeholderFor i := by
        unfold descOf
        rw [hplaceholder i hi]
        rfl
      rw [hd, validDesc_placeholder i hi]
      simp
    constructor
    · rw [body_imageCalls, hfilter]
      rfl
    · rw [body_transCalls, hfilter]
      rfl

/-- Witness for C5: the spec's example `"Some unrelated text with no markers"`
yields four placeholder panels and an empty image/translation call log. -/
theorem extractor_total_and_degrades_witness :
    alistGet? (extract_panels "Some unrelated text with no markers".data) (panelKey 1)
      = some (placeholderFor 1) ∧
    alistGet? (extract_panels "Some unrelated text with no markers".data) (panelKey 2)
      = some (placeholderFor 2) ∧
    alistGet? (extract_panels "Some unrelated text with no markers".data) (panelKey 3)
      = some (placeholderFor 3) ∧
    alistGet? (extract_panels "Some unrelated text with no markers".data) (panelKey 4)
      = some (placeholderFor 4) ∧
    (generate_dream_comic_body
      (.resp 200 [] "Some unrelated text with no markers".data) true "output/s".data true
      (fun _ => true) (fun _ => none)).imageCalls = [] ∧
    (generate_dream_comic_body
      (.resp 200 [] "Some unrelated text with no markers".data) true "output/s".data true
      (fun _ => true) (fun _ => none)).transCalls = [] := by
  have h := extractor_total_and_degrades.2 "Some unrelated text with no markers".data
    (by decide)
  have hz := h.2 [] "output/s".data (fun _ => true) (fun _ => none)
  exact ⟨h.1 1 (by simp), h.1 2 (by simp), h.1 3 (by simp), h.1 4 (by simp), hz.1, hz.2⟩

/-- Claim C3: a panel whose extracted description is the missing-placeholder string
never appears among the image-generation or translation calls of a run; and for
input text with marker blocks for panels 1, 2, 4 but whose lines never match
"Panel 3", the extractor produces the placeholder for index 3 while panels 1, 2, 4
keep their extracted content. -/
theorem placeholder_skipped_and_missing_marker :
    (∀ (text content dir : Str) (imgOk : Nat → Bool) (tro : Str → Option Str) (i : Nat),
      i ∈ ([1, 2, 3, 4] : List Nat) →
      placeholderFor i ∉
        (generate_dream_comic_body (.resp 200 text content) true dir true
          imgOk tro).imageCalls ∧
      placeholderFor i ∉
        (generate_dream_comic_body (.resp 200 text content) true dir true
          imgOk tro).transCalls) ∧
    (∀ (content l1 l2 l4 : Str) (c1 c2 c4 : List Str),
      pySplit content = l1 :: c1 ++ l2 :: c2 ++ l4 :: c4 →
      lineMatches 1 l1 = true →
      lineMatches 2 l2 = true → lineMatches 1 l2 = false →
      lineMatches 4 l4 = true → lineMatches 1 l4 = false →
      lineMatches 2 l4 = false → lineMatches 3 l4 = false →
      (∀ c, (c ∈ c1 ∨ c ∈ c2 ∨ c ∈ c4) →
        ∀ k ∈ ([1, 2, 3, 4] : List Nat), lineMatches k c = false) →
      alistGet? (extract_panels content) (panelKey 3) = some (placeholderFor 3) ∧
      alistGet? (extract_panels content) (panelKey 1) = some (appendConts (colonInit l1) c1) ∧
      alistGet? (extract_panels content) (panelKey 2) = some (appendConts (colonInit l2) c2) ∧
      alistGet? (extract_panels content) (panelKey 4) = some (appendConts (colonInit l4) c4)) := by
  constructor
  · intro text content dir imgOk tro i hi
    have hmem : ∀ p ∈ (([1, 2, 3, 4] : List Nat).filter
        (fun j => validDesc (descOf (extract_panels content) j))).map
        (fun j => descOf (extract_panels content) j), validDesc p = true := by
      intro p hp
      obtain ⟨j, hj, rfl⟩ := List.mem_map.mp hp
      exact (List.mem_filter.mp hj).2
    constructor
    · rw [body_imageCalls]
      intro hmem'
      have hv := hmem _ hmem'
      rw [validDesc_placeholder i hi] at hv
      exact absurd hv (by decide)
    · rw [body_transCalls]
      intro hmem'
      have hv := hmem _ hmem'
      rw [validDesc_placeholder i hi] at hv
      exact absurd hv (by decide)
  · intro content l1 l2 l4 c1 c2 c4 hsplit hm1 hm2 h21 hm4 h41 h42 h43 hc
    have hEx : extract_panels content
        = fillMissing ((pySplit content).foldl stepLine ⟨[], none⟩).panels := rfl
    have hsegs : (l1 :: c1 ++ l2 :: c2 ++ l4 :: c4 : List Str)
        = (l1 :: c1) ++ ((l2 :: c2) ++ (l4 :: c4)) := by simp
    obtain ⟨d1, heq1, hget1, hpres1⟩ :=
      foldl_segment l1 c1 [] none 1 (by simp) hm1 (hlow_vacuous_one l1)
        (fun c hcm => hc c (Or.inl hcm))
    obtain ⟨d2, heq2, hget2, hpres2⟩ :=
      foldl_segment l2 c2 d1 (some 1) 2 (by simp) hm2 (hlow_two l2 h21)
        (fun c hcm => hc c (Or.inr (Or.inl hcm)))
    obtain ⟨d4, heq4, hget4, hpres4⟩ :=
      foldl_segment l4 c4 d2 (some 2) 4 (by simp) hm4 (hlow_four l4 h41 h42 h43)
        (fun c hcm => hc c (Or.inr (Or.inr hcm)))
    have hfold : ((l1 :: c1) ++ ((l2 :: c2) ++ (l4 :: c4))).foldl stepLine
        (⟨[], none⟩ : ExtractState) = ⟨d4, some 4⟩ := by
      rw [List.foldl_append, heq1, List.foldl_append, heq2, heq4]
    rw [hEx, hsplit, hsegs, hfold]
    refine ⟨?_, ?_, ?_, ?_⟩
    · rw [show (⟨d4, some 4⟩ : ExtractState).panels = d4 from rfl,
        fill_get d4 3 (by simp), hpres4 (panelKey 3) (by decide),
        hpres2 (panelKey 3) (by decide), hpres1 (panelKey 3) (by decide)]
      rfl
    · rw [show (⟨d4, some 4⟩ : ExtractState).panels = d4 from rfl,
        fill_get d4 1 (by simp), hpres4 (panelKey 1) (by decide),
        hpres2 (panelKey 1) (by decide), hget1]
      rfl
    · rw [show (⟨d4, some 4⟩ : ExtractState).panels = d4 from rfl,
        fill_get d4 2 (by simp), hpres4 (panelKey 2) (by decide), hget2]
      rfl
    · rw [show (⟨d4, some 4⟩ : ExtractState).panels = d4 from rfl,
        fill_get d4 4 (by simp), hget4]
      rfl

/-- Witness for C3: on input with "Panel 1", "Panel 2", "Panel 4" markers but no
"Panel 3", panel 3 gets the placeholder, the others their content, and the
placeholder is never among the calls of a run on that content. -/
theorem placeholder_skipped_and_missing_marker_witness :
    placeholderFor 3 ∉ (generate_dream_comic_body
      (.resp 200 [] "Panel 1: A\nPanel 2: B\nPanel 4: D".data) true "output/s".data true
      (fun _ => true) (fun _ => none)).imageCalls ∧
    alistGet? (extract_panels "Panel 1: A\nPanel 2: B\nPanel 4: D".data) (panelKey 3)
      = some (placeholderFor 3) ∧
    alistGet? (extract_panels "Panel 1: A\nPanel 2: B\nPanel 4: D".data) (panelKey 1)
      = some "A".data ∧
    alistGet? (extract_panels "Panel 1: A\nPanel 2: B\nPanel 4: D".data) (panelKey 2)
      = some "B".data ∧
    alistGet? (extract_panels "Panel 1: A\nPanel 2: B\nPanel 4: D".data) (panelKey 4)
      = some "D".data := by
  have h1 := (placeholder_skipped_and_missing_marker.1 []
    "Panel 1: A\nPanel 2: B\nPanel 4: D".data "output/s".data
    (fun _ => true) (fun _ => none) 3 (by simp)).1
  have h2 := placeholder_skipped_and_missing_marker.2
    "Panel 1: A\nPanel 2: B\nPanel 4: D".data
    "Panel 1: A".data "Panel 2: B".data "Panel 4: D".data [] [] []
    (by decide) (by decide) (by decide) (by decide) (by decide) (by decide)
    (by decide) (by decide)
    (by rintro c (hcm | hcm | hcm) <;> cases hcm)
  exact ⟨h1, h2.1, h2.2.1.trans (by decide), h2.2.2.1.trans (by decide),
    h2.2.2.2.trans (by decide)⟩

/-- Counterexample to claim C1: a request whose chat call fails (status 500,
provider text "boom") is not answered with a server error — the endpoint returns a
success payload with four placeholder panels and no chinese or image entries. -/
theorem chat_failure_success_payload_counterexample :
    (api_generate_comic (some "test dream".data) none "sid".data
        (.resp 500 "boom".data []) (fun _ => true) (fun _ => none) (fun _ => false)).1
      = .ok ⟨[(panelKey 1, ⟨placeholderFor 1, none, none⟩),
             (panelKey 2, ⟨placeholderFor 2, none, none⟩),
             (panelKey 3, ⟨placeholderFor 3, none, none⟩),
             (panelKey 4, ⟨placeholderFor 4, none, none⟩)], "sid".data⟩ := by
  rfl

/-- Amended claim C1: when the chat call fails (non-200 status or exception),
`generate_dream_comic` aborts before any panel processing and returns the
`{"error": ...}` dict carrying the provider's message (resp. the exception text),
with no image or translation calls; the API endpoint, however, does not turn this
into a server error — it answers with a success payload whose four panels carry the
placeholder descriptions and no chinese or image entries. -/
theorem chat_failure_error_dict_api_success
    (status : Nat) (text content : Str) (h : status ≠ 200) :
    (∀ (gi tc : Bool) (dir : Str) (imgOk : Nat → Bool) (tro : Str → Option Str),
      generate_dream_comic_body (.resp status text content) gi dir tc imgOk tro
        = ⟨[(errorKey, text)], [], []⟩) ∧
    (∀ (msg dir : Str) (gi tc : Bool) (imgOk : Nat → Bool) (tro : Str → Option Str),
      generate_dream_comic_body (.exn msg) gi dir tc imgOk tro
        = ⟨[(errorKey, msg)], [], []⟩) ∧
    (∀ (dream prompt : Option Str) (sid : Str) (imgOk : Nat → Bool)
      (tro : Str → Option Str) (fileEx : Str → Bool),
      pyTruthy (getDreamText dream prompt) = true →
      (api_generate_comic dream prompt sid (.resp status text content) imgOk tro fileEx).1
        = .ok ⟨([1, 2, 3, 4] : List Nat).map
            (fun i => (panelKey i, ⟨placeholderFor i, none, none⟩)), sid⟩) := by
  refine ⟨fun gi tc dir imgOk tro => body_error_status status text content dir gi tc imgOk tro h,
    fun msg dir gi tc imgOk tro => body_error_exn msg dir gi tc imgOk tro, ?_⟩
  intro dream prompt sid imgOk tro fileEx hd
  rw [api_ok_eq dream prompt sid _ imgOk tro fileEx hd]
  have hbody := body_error_status status text content (pyJoin outputFolder sid) true true
    imgOk tro h
  rw [hbody]
  have hmap : ([1, 2, 3, 4] : List Nat).map
      (fun i => (panelKey i, assemblePanel [(errorKey, text)] sid fileEx i))
      = ([1, 2, 3, 4] : List Nat).map
      (fun i => (panelKey i, (⟨placeholderFor i, none, none⟩ : PanelEntry))) := by
    apply List.map_congr_left
    intro i hi
    rw [assemblePanel_error text sid fileEx i hi]
  rw [show ((⟨[(errorKey, text)], [], []⟩ : BodyResult)).comic = [(errorKey, text)] from rfl,
    hmap]

/-- Witness for the amended C1: concrete instantiation with a 500 chat response. -/
theorem chat_failure_error_dict_api_success_witness :
    generate_dream_comic_body (.resp 500 "oops".data "ignored".data) true "output/s".data
      true (fun _ => true) (fun _ => some "T".data)
      = ⟨[(errorKey, "oops".data)], [], []⟩ ∧
    (api_generate_comic (some "w".data) none "s".data (.resp 500 "oops".data "ignored".data)
        (fun _ => true) (fun _ => some "T".data) (fun _ => true)).1
      = .ok ⟨([1, 2, 3, 4] : List Nat).map
          (fun i => (panelKey i, ⟨placeholderFor i, none, none⟩)), "s".data⟩ := by
  have h := chat_failure_error_dict_api_success 500 "oops".data "ignored".data (by decide)
  exact ⟨h.1 true true "output/s".data (fun _ => true) (fun _ => some "T".data),
    h.2.2 (some "w".data) none "s".data (fun _ => true) (fun _ => some "T".data)
      (fun _ => true) (by decide)⟩

/-- Counterexample to claim C4: in the server/API path, a run in which every
translation call fails (the translation oracle always raises) records the original
untranslated description as the panel's chinese text — not the
"Translation not available" marker, which claim C4 attributes to the API path. -/
theorem api_translation_failure_keeps_original_counterexample :
    ((api_generate_comic (some "d".data) none "s".data
        (.resp 200 []
          "Panel 1: A cat.\nPanel 2: A dog.\nPanel 3: A bird.\nPanel 4: A fish.".data)
        (fun _ => false) (fun _ => none) (fun _ => false)).1
      = .ok ⟨[(panelKey 1, ⟨"A cat.".data, some "A cat.".data, none⟩),
             (panelKey 2, ⟨"A dog.".data, some "A dog.".data, none⟩),
             (panelKey 3, ⟨"A bird.".data, some "A bird.".data, none⟩),
             (panelKey 4, ⟨"A fish.".data, some "A fish.".data, none⟩)], "s".data⟩) ∧
    "A cat.".data ≠ notAvailableMsg := by
  exact ⟨rfl, by decide⟩

/-- Amended claim C4: `translate_to_traditional_chinese` returns the original text
when the translation call raises, and both entry points (the CLI and the API both
run the same `generate_dream_comic` loop) therefore fall back to the original
description on a failed translation call; the "Translation not available" marker is
recorded — in both entry points — exactly for the panels whose description is
invalid (empty or containing "[Panel"), for which no translation call is made. -/
theorem translation_failure_falls_back_to_original (tro : Str → Option Str) :
    (∀ t : Str, tro t = none → translate_to_traditional_chinese tro t = t) ∧
    (∀ (text content dir : Str) (imgOk : Nat → Bool) (i : Nat),
      i ∈ ([1, 2, 3, 4] : List Nat) →
      (validDesc (descOf (extract_panels content) i) = true →
        tro (descOf (extract_panels content) i) = none →
        alistGet? (generate_dream_comic_body (.resp 200 text content) true dir true
            imgOk tro).comic (chineseKey i)
          = some (descOf (extract_panels content) i)) ∧
      (validDesc (descOf (extract_panels content) i) = false →
        alistGet? (generate_dream_comic_body (.resp 200 text content) true dir true
            imgOk tro).comic (chineseKey i)
          = some notAvailableMsg)) := by
  constructor
  · intro t ht
    unfold translate_to_traditional_chinese
    rw [ht]
  · intro text content dir imgOk i hi
    constructor
    · intro hv ht
      rw [body_chinese text content dir imgOk tro i hi]
      unfold chineseOutcome translate_to_traditional_chinese
      rw [hv, ht]
      simp
    · intro hv
      rw [body_chinese text content dir imgOk tro i hi]
      unfold chineseOutcome
      rw [hv]
      simp

/-- Witness for the amended C4: a concrete run with an always-failing translation
oracle keeps the original description; a panel with an invalid (empty) description
gets the "Translation not available" marker. -/
theorem translation_failure_falls_back_witness :
    translate_to_traditional_chinese (fun _ => none) "A cat.".data = "A cat.".data ∧
    alistGet? (generate_dream_comic_body
        (.resp 200 [] "Panel 1: A cat.\nPanel 2\nPanel 3: C\nPanel 4: D".data)
        true "output/s".data true (fun _ => true) (fun _ => none)).comic (chineseKey 1)
      = some "A cat.".data ∧
    alistGet? (generate_dream_comic_body
        (.resp 200 [] "Panel 1: A cat.\nPanel 2\nPanel 3: C\nPanel 4: D".data)
        true "output/s".data true (fun _ => true) (fun _ => none)).comic (chineseKey 2)
      = some notAvailableMsg := by
  have h := translation_failure_falls_back_to_original (fun _ => none)
  have h1 := (h.2 [] "Panel 1: A cat.\nPanel 2\nPanel 3: C\nPanel 4: D".data
    "output/s".data (fun _ => true) 1 (by simp)).1 (by decide) rfl
  have h2 := (h.2 [] "Panel 1: A cat.\nPanel 2\nPanel 3: C\nPanel 4: D".data
    "output/s".data (fun _ => true) 2 (by simp)).2 (by decide)
  exact ⟨h.1 "A cat.".data rfl, h1.trans (by decide), h2⟩

/-- Claim C6 is what the endpoint was meant to do; as shipped, `generate_dream_comic`
reads the unassigned local `image_path` at line 98 and raises on every call, so every
request that passes the `dream_text` check is answered with a 500 error payload that
contains no panels at all — never a payload with four panel entries. -/
theorem shipped_endpoint_always_server_error :
    api_generate_comic_shipped (some "test dream".data) none
      = (.serverError imagePathUnboundMsg, ⟨true, true⟩) ∧
    ∀ p : ApiPayload, (api_generate_comic_shipped (some "test dream".data) none).1
      ≠ .ok p := by
  exact ⟨rfl, fun p h => ApiResponse.noConfusion h⟩

/-- Claim C7: in the assembled response, each panel entry's `image_url` is present
exactly when `os.path.exists` holds of the value stored under that panel's image
key, and then it is the constructed path `/api/images/{session_id}/{basename}`;
existence is consulted through the `fileEx` oracle, never assumed. -/
theorem image_url_iff_file_exists
    (dream prompt : Option Str) (sid text content : Str) (imgOk : Nat → Bool)
    (tro : Str → Option Str) (fileEx : Str → Bool)
    (hd : pyTruthy (getDreamText dream prompt) = true)
    (i : Nat) (hi : i ∈ ([1, 2, 3, 4] : List Nat)) :
    ∃ payload entry v,
      (api_generate_comic dream prompt sid (.resp 200 text content) imgOk tro fileEx).1
        = .ok payload ∧
      alistGet? payload.panels (panelKey i) = some entry ∧
      alistGet? (generate_dream_comic_body (.resp 200 text content) true
          (pyJoin outputFolder sid) true imgOk tro).comic (imageKey i) = some v ∧
      entry.image_url
        = (if fileEx v = true then some (apiImageUrl sid (pyBasename v)) else none) := by
  rw [api_ok_eq dream prompt sid _ imgOk tro fileEx hd]
  refine ⟨_, assemblePanel (generate_dream_comic_body (.resp 200 text content) true
      (pyJoin outputFolder sid) true imgOk tro).comic sid fileEx i,
    imageOutcome imgOk (pyJoin outputFolder sid) (extract_panels content) i,
    rfl, ?_, ?_, ?_⟩
  · exact alistGet?_map_panels _ i hi
  · exact body_image text content (pyJoin outputFolder sid) imgOk tro i hi
  · unfold assemblePanel
    rw [body_image text content (pyJoin outputFolder sid) imgOk tro i hi]

/-- Witness for C7: concrete runs in which the file exists (url present, with the
constructed path) and in which it does not (no url). -/
theorem image_url_iff_file_exists_witness :
    (∃ payload entry v,
      (api_generate_comic (some "d".data) none "s".data
          (.resp 200 [] "Panel 1: A\nPanel 2: B\nPanel 3: C\nPanel 4: D".data)
          (fun _ => true) (fun _ => some "T".data) (fun _ => true)).1 = .ok payload ∧
      alistGet? payload.panels (panelKey 1) = some entry ∧
      alistGet? (generate_dream_comic_body
          (.resp 200 [] "Panel 1: A\nPanel 2: B\nPanel 3: C\nPanel 4: D".data) true
          (pyJoin outputFolder "s".data) true (fun _ => true)
          (fun _ => some "T".data)).comic (imageKey 1) = some v ∧
      entry.image_url
        = (if (fun _ => true) v = true then some (apiImageUrl "s".data (pyBasename v))
           else none)) := by
  exact image_url_iff_file_exists (some "d".data) none "s".data []
    "Panel 1: A\nPanel 2: B\nPanel 3: C\nPanel 4: D".data
    (fun _ => true) (fun _ => some "T".data) (fun _ => true) (by decide) 1 (by simp)

/-- Claim C8: a request in which neither `dream_text` nor its `prompt` alias carries
a non-empty value is rejected with the client error
"Missing required parameter: dream_text", before the session directory is created,
before `generate_dream_comic` (and with it any external call) is invoked, and with
empty call logs. -/
theorem missing_dream_text_rejected (dream prompt : Option Str) (sid : Str)
    (chat : ChatOutcome) (imgOk : Nat → Bool) (tro : Str → Option Str)
    (fileEx : Str → Bool)
    (h : pyTruthy (getDreamText dream prompt) = false) :
    api_generate_comic dream prompt sid chat imgOk tro fileEx
      = (.clientError missingMsg, ⟨false, false⟩, [], []) := by
  simp [api_generate_comic, h]

/-- Witness for C8: the empty request is rejected with no side effects. -/
theorem missing_dream_text_rejected_witness :
    api_generate_comic none none "sid".data (.resp 200 [] "Panel 1: x".data)
        (fun _ => true) (fun _ => none) (fun _ => true)
      = (.clientError missingMsg, ⟨false, false⟩, [], []) :=
  missing_dream_text_rejected none none "sid".data (.resp 200 [] "Panel 1: x".data)
    (fun _ => true) (fun _ => none) (fun _ => true) (by decide)

/-- Claim C10: in a generation run, the image-generation calls and the translation
calls are issued exactly for the panels whose extracted description is non-empty
and free of the substring "[Panel" (in index order, with the description as the
prompt); a panel failing that test is marked
"No valid description for image generation" and "Translation not available". -/
theorem per_panel_call_condition (text content dir : Str) (imgOk : Nat → Bool)
    (tro : Str → Option Str) :
    (generate_dream_comic_body (.resp 200 text content) true dir true imgOk
        tro).imageCalls
      = (([1, 2, 3, 4] : List Nat).filter
          (fun i => validDesc (descOf (extract_panels content) i))).map
          (fun i => descOf (extract_panels content) i) ∧
    (generate_dream_comic_body (.resp 200 text content) true dir true imgOk
        tro).transCalls
      = (([1, 2, 3, 4] : List Nat).filter
          (fun i => validDesc (descOf (extract_panels content) i))).map
          (fun i => descOf (extract_panels content) i) ∧
    ∀ i ∈ ([1, 2, 3, 4] : List Nat),
      validDesc (descOf (extract_panels content) i) = false →
      alistGet? (generate_dream_comic_body (.resp 200 text content) true dir true
          imgOk tro).comic (imageKey i) = some noValidImageMsg ∧
      alistGet? (generate_dream_comic_body (.resp 200 text content) true dir true
          imgOk tro).comic (chineseKey i) = some notAvailableMsg := by
  refine ⟨body_imageCalls text content dir imgOk tro,
    body_transCalls text content dir imgOk tro, ?_⟩
  intro i hi hv
  constructor
  · rw [body_image text content dir imgOk tro i hi]
    unfold imageOutcome
    rw [hv]
    simp
  · rw [body_chinese text content dir imgOk tro i hi]
    unfold chineseOutcome
    rw [hv]
    simp

/-- Witness for C10: a run whose reply has a colon-less "Panel 1" line (empty
description) and a panel-2 description containing "[Panel": only panels 3 and 4 are
sent for image generation and translation, and the skipped panels carry the two
marker strings. -/
theorem per_panel_call_condition_witness :
    (generate_dream_comic_body
        (.resp 200 [] "Panel 1\nPanel 2: ok [Panel x\nPanel 3: fine\nPanel 4: also".data)
        true "output/s".data true (fun _ => true) (fun _ => none)).imageCalls
      = ["fine".data, "also".data] ∧
    (generate_dream_comic_body
        (.resp 200 [] "Panel 1\nPanel 2: ok [Panel x\nPanel 3: fine\nPanel 4: also".data)
        true "output/s".data true (fun _ => true) (fun _ => none)).transCalls
      = ["fine".data, "also".data] ∧
    alistGet? (generate_dream_comic_body
        (.resp 200 [] "Panel 1\nPanel 2: ok [Panel x\nPanel 3: fine\nPanel 4: also".data)
        true "output/s".data true (fun _ => true) (fun _ => none)).comic (imageKey 1)
      = some noValidImageMsg ∧
    alistGet? (generate_dream_comic_body
        (.resp 200 [] "Panel 1\nPanel 2: ok [Panel x\nPanel 3: fine\nPanel 4: also".data)
        true "output/s".data true (fun _ => true) (fun _ => none)).comic (chineseKey 2)
      = some notAvailableMsg := by
  have h := per_panel_call_condition []
    "Panel 1\nPanel 2: ok [Panel x\nPanel 3: fine\nPanel 4: also".data
    "output/s".data (fun _ => true) (fun _ => none)
  have h1 := (h.2.2 1 (by simp) (by decide)).1
  have h2 := (h.2.2 2 (by simp) (by decide)).2
  exact ⟨h.1.trans (by decide), h.2.1.trans (by decide), h1, h2⟩

end DreamComic
